import Mathlib

/-!
Verification development for the htspy BAM record codec
(`src/htspy/_bammodule.c`, `src/htspy/_bgzfmodule.c`,
`src/htspy/ascii_check_short.h`, `src/pybam/_bamrecord.c`).

Machine integers are modelled as `Nat` (unsigned) and `Int` (signed) with
explicit reduction modulo `2^w` wherever the C code truncates.  Byte buffers
are `List Nat` whose elements are below 256 for well-formed data.  Fallible
C functions (those that set a Python exception and return an error marker)
are modelled with `Except String`.
-/

deriving instance DecidableEq for Except

namespace Htspy

/-! ## Little-endian byte-level helpers -/

/-- Little-endian encoding of a 16-bit value (two bytes). -/
def u16le (n : Nat) : List Nat :=
  [n % 256, n / 256 % 256]

/-- Little-endian encoding of a 32-bit value (four bytes). -/
def u32le (n : Nat) : List Nat :=
  [n % 256, n / 256 % 256, n / 65536 % 256, n / 16777216 % 256]

/-- Little-endian encoding of a signed 32-bit value, two's complement. -/
def i32le (z : Int) : List Nat :=
  u32le ((z % (4294967296 : Int)).toNat)

/-- Read a little-endian 16-bit value from the first two bytes of a list. -/
def leU16 (b : List Nat) : Nat :=
  b.getD 0 0 + 256 * b.getD 1 0

/-- Read a little-endian 32-bit value from the first four bytes of a list. -/
def leU32 (b : List Nat) : Nat :=
  b.getD 0 0 + 256 * b.getD 1 0 + 65536 * b.getD 2 0 + 16777216 * b.getD 3 0

/-- Reinterpret an unsigned 32-bit value as a signed one (two's complement). -/
def toI32 (n : Nat) : Int :=
  if n < 2147483648 then (n : Int) else (n : Int) - 4294967296

/-- Serialize a list of 32-bit words to little-endian bytes. -/
def wordsToBytes : List Nat → List Nat
  | [] => []
  | w :: ws => u32le w ++ wordsToBytes ws

/-- Read `n` little-endian 32-bit words from a byte list. -/
def readWords (b : List Nat) : Nat → List Nat
  | 0 => []
  | n + 1 => leU32 b :: readWords (b.drop 4) n

/-! ## CIGAR words

`_conversions.h` is not present under `src/`; the `bam_cigar_*` helpers and
lookup tables it defines are modelled from the spec, which fixes the layout:
the low 4 bits of a 32-bit word encode the operation (0..9 for the letters
`MIDNSHP=XB`), the upper 28 bits the run length. -/

/-- Modelled from the spec: `BAM_CIGAR_MAX_COUNT` is `0x0FFFFFFF`
(the source defines the same constant in `_bammodule.c`). -/
def BAM_CIGAR_MAX_COUNT : Nat := 268435455

/-- Modelled from the spec: operation codes run from 0 to 9. -/
def BAM_CIGAR_MAX_OP : Nat := 9

/-- Modelled from the spec: soft clip is operation 4 (`S` in `MIDNSHP=XB`). -/
def BAM_CSOFT_CLIP : Nat := 4

/-- Modelled from the spec (`_conversions.h` is missing from `src/`): build a
cigar word from a run length and an operation, truncated to 32 bits on store.
All call sites pass an operation in `0..9`, so the bitwise-or of the C macro
coincides with `l * 16 + o`. -/
def bam_cigar_gen (l o : Int) : Nat :=
  ((l * 16 + o) % (4294967296 : Int)).toNat

/-- Modelled from the spec: the operation is the low 4 bits of a cigar word. -/
def bam_cigar_op (w : Nat) : Nat := w % 16

/-- Modelled from the spec: the run length is the upper 28 bits of a word. -/
def bam_cigar_oplen (w : Nat) : Nat := w / 16

/-- Modelled from the spec: letter-to-operation table (`MIDNSHP=XB` map to
0..9, every other byte to -1), as used by the cigar string constructor. -/
def bam_cigar_table (b : Nat) : Int :=
  if b = 77 then 0        -- M
  else if b = 73 then 1   -- I
  else if b = 68 then 2   -- D
  else if b = 78 then 3   -- N
  else if b = 83 then 4   -- S
  else if b = 72 then 5   -- H
  else if b = 80 then 6   -- P
  else if b = 61 then 7   -- =
  else if b = 88 then 8   -- X
  else if b = 66 then 9   -- B
  else -1

/-! ## Cigar constructors (`_bammodule.c`) -/

/-- `BamCigar_from_iter` (`_bammodule.c`): build a cigar from (operation,
count) pairs.  The operation range check exits with an error; the count
range check in the source formats an error message but is NOT followed by
the error-exit macro, so an out-of-range count still stores a (truncated)
word and the function returns the cigar object. -/
def BamCigar_from_iter : List (Int × Int) → Except String (List Nat)
  | [] => .ok []
  | (operation, count) :: rest =>
    if operation > 9 ∨ operation < 0 then
      .error "Operation should be between 0 and 9"
    else
      -- the `count > BAM_CIGAR_MAX_COUNT || count < 0` branch in the source
      -- formats an error but falls through without returning
      match BamCigar_from_iter rest with
      | .error e => .error e
      | .ok ws => .ok (bam_cigar_gen count operation :: ws)

/-- `BamCigar_from_buffer` (`_bammodule.c`): reinterpret a byte buffer as
little-endian 32-bit cigar words; only the length is checked. -/
def BamCigar_from_buffer (data : List Nat) : Except String (List Nat) :=
  if data.length % 4 ≠ 0 then
    .error "buffer length not a multiple of 4"
  else
    .ok (readWords data (data.length / 4))

/-! ## VirtualFileOffset (`_bgzfmodule.c`) -/

/-- `COFFSET_MAX` from `_bgzfmodule.c`. -/
def COFFSET_MAX : Nat := 281474976710655

/-- `UOFFSET_MAX` from `_bgzfmodule.c`. -/
def UOFFSET_MAX : Nat := 65535

/-- `VirtualFileOffset.__init__` (`_bgzfmodule.c`): after the range checks the
source combines the components with a bitwise AND:
`voffset = (coffset << 16) & uoffset`. -/
def VirtualFileOffset__init__ (coffset uoffset : Nat) : Except String Nat :=
  if coffset > COFFSET_MAX then
    .error "larger than maximum allowed coffset value"
  else if uoffset > UOFFSET_MAX then
    .error "larger than maximum allowed uoffset value"
  else
    .ok ((coffset <<< 16) % 18446744073709551616 &&& uoffset)

/-- `VirtualFileOffset.coffset` getter: the high 48 bits. -/
def VirtualFileOffset_coffset_get (voffset : Nat) : Nat := voffset >>> 16

/-- `VirtualFileOffset.uoffset` getter: the low 16 bits. -/
def VirtualFileOffset_uoffset_get (voffset : Nat) : Nat := voffset &&& UOFFSET_MAX

/-! ## IUPAC nucleotide codec

The lookup tables live in the missing `_conversions.h`; they are modelled
from the spec: the valid characters are `=ACMGRSVTWYHKDBN` with 4-bit codes
0..15, every other byte maps to -1.  The encoder in `BamRecord_set_sequence`
reads one byte past an odd-length string, hitting the terminating NUL byte
that CPython guarantees; per the spec the resulting last packed byte has a
zero low nibble, so the table must send the NUL byte to code 0. -/

/-- Modelled from the spec: ASCII byte to 4-bit IUPAC code, -1 when invalid.
The NUL terminator maps to 0 so that the encoder's odd-length case stores a
zero low nibble, as the spec's scenarios require. -/
def nucleotide_to_number (b : Nat) : Int :=
  if b = 61 then 0        -- =
  else if b = 65 then 1   -- A
  else if b = 67 then 2   -- C
  else if b = 77 then 3   -- M
  else if b = 71 then 4   -- G
  else if b = 82 then 5   -- R
  else if b = 83 then 6   -- S
  else if b = 86 then 7   -- V
  else if b = 84 then 8   -- T
  else if b = 87 then 9   -- W
  else if b = 89 then 10  -- Y
  else if b = 72 then 11  -- H
  else if b = 75 then 12  -- K
  else if b = 68 then 13  -- D
  else if b = 66 then 14  -- B
  else if b = 78 then 15  -- N
  else if b = 0 then 0    -- NUL terminator (see module comment)
  else -1

/-- Modelled from the spec: 4-bit IUPAC code back to its ASCII byte
(`=ACMGRSVTWYHKDBN`). -/
def number_to_nucleotide (k : Nat) : Nat :=
  [61, 65, 67, 77, 71, 82, 83, 86, 84, 87, 89, 72, 75, 68, 66, 78].getD (k % 16) 61

/-- Modelled from the spec: `number_to_nucleotide_pair_le` decodes one packed
byte to its two ASCII characters, high nibble first. -/
def number_to_nucleotide_pair_le (b : Nat) : List Nat :=
  [number_to_nucleotide (b / 16 % 16), number_to_nucleotide (b % 16)]

/-! ## BamRecord (`_bammodule.c`) -/

/-- The in-memory BAM record: the fixed 32-byte header counters (plus the
leading `block_size`) and the five owned variable-length children.
Header fields mirror the C struct's unsigned/signed widths. -/
structure BamRecord where
  block_size : Nat    -- uint32
  refID : Int         -- int32
  pos : Int           -- int32
  l_read_name : Nat   -- uint8
  mapq : Nat          -- uint8
  bin : Nat           -- uint16
  n_cigar_op : Nat    -- uint16
  flag : Nat          -- uint16
  l_seq : Nat         -- uint32
  next_refID : Int    -- int32
  next_pos : Int      -- int32
  tlen : Int          -- int32
  read_name : List Nat   -- bytes (without the terminating NUL)
  cigar : List Nat       -- uint32 cigar words
  seq : List Nat         -- packed 4-bit bytes
  qual : List Nat        -- phred bytes
  tags : List Nat        -- opaque tag blob
  deriving DecidableEq, Repr

/-- `BamRecord_init` (`_bammodule.c`): construction from named fields.  The
`block_size` initializer keeps the source's `(self->l_seq + 1 / 2)`
expression verbatim (integer division binds tighter than addition). -/
def BamRecord_init (reference_id position : Int) (read_name : List Nat)
    (mapping_quality flag : Nat) (next_reference_id next_position : Int) :
    BamRecord :=
  let l_read_name := (read_name.length + 1) % 256
  let n_cigar_op := 0
  let l_seq := 0
  let tags : List Nat := []
  { block_size := (32 + l_read_name + (l_seq + 1 / 2) + l_seq +
      n_cigar_op * 4 + tags.length) % 4294967296
    refID := reference_id
    pos := position
    l_read_name := l_read_name
    mapq := mapping_quality % 256
    bin := 0
    n_cigar_op := n_cigar_op
    flag := flag % 65536
    l_seq := l_seq
    next_refID := next_reference_id
    next_pos := next_position
    tlen := 0
    read_name := read_name
    cigar := []
    seq := []
    qual := []
    tags := tags }

/-- `BamRecord_set__read_name` (`_bammodule.c`): install a new read name
(bytes), reject lengths above 254, update `l_read_name` and `block_size`. -/
def BamRecord_set__read_name (r : BamRecord) (new_read_name : List Nat) :
    Except String BamRecord :=
  if new_read_name.length > 254 then
    .error "read_name may not be larger than 254 characters."
  else
    let old_l_read_name := r.l_read_name
    let l_read_name := new_read_name.length + 1
    .ok { r with
      read_name := new_read_name
      l_read_name := l_read_name
      block_size := (((r.block_size : Int) + l_read_name - old_l_read_name) %
        (4294967296 : Int)).toNat }

/-- `BamRecord_set_tags` (`_bammodule.c`): install a new raw tag blob and
keep `block_size` in sync with the length change. -/
def BamRecord_set_tags (r : BamRecord) (new_tags : List Nat) : BamRecord :=
  { r with
    tags := new_tags
    block_size := (((r.block_size : Int) + new_tags.length - r.tags.length) %
      (4294967296 : Int)).toNat }

/-- `BamRecord_get_cigar` (`_bammodule.c`): when `n_cigar_op` is exactly 2 and
the first stored word is a soft clip whose length equals `l_seq`, the getter
raises `NotImplementedError` unconditionally (no `CG` tag is consulted);
otherwise it returns the stored cigar. -/
def BamRecord_get_cigar (r : BamRecord) : Except String (List Nat) :=
  if r.n_cigar_op = 2 ∧ bam_cigar_op (r.cigar.getD 0 0) = BAM_CSOFT_CLIP ∧
      bam_cigar_oplen (r.cigar.getD 0 0) = r.l_seq then
    .error "Support for cigars longer than 65536 has not yet been implemented."
  else
    .ok r.cigar

/-- `BamRecord_set_cigar` (`_bammodule.c`): install a cigar, rejecting more
than 65536 operations; `n_cigar_op` is a `uint16_t` so the stored count is
the length reduced modulo 2^16.  The source does not touch `block_size`. -/
def BamRecord_set_cigar (r : BamRecord) (new_cigar : List Nat) :
    Except String BamRecord :=
  if new_cigar.length > 65536 then
    .error "Support for cigars longer than 65536 has not yet been implemented."
  else
    .ok { r with
      cigar := new_cigar
      n_cigar_op := new_cigar.length % 65536 }

/-- Encoder loop of `BamRecord_set_sequence`: two characters per packed byte,
high nibble first.  For an odd-length input the final iteration reads the
string's terminating NUL byte (code 0); an invalid character aborts.  The
nibbles are combined as `first * 16 + second`, which equals the source's
`(first << 4) | second` because the codes are below 16. -/
def encode_nucleotides : List Nat → Except String (List Nat)
  | [] => .ok []
  | [c] =>
    let iupac_int_first := nucleotide_to_number c
    if iupac_int_first = -1 then .error "Not a IUPAC character"
    else
      -- the second read hits the terminating NUL byte, with code 0
      .ok [iupac_int_first.toNat * 16 + (nucleotide_to_number 0).toNat]
  | c1 :: c2 :: rest =>
    let iupac_int_first := nucleotide_to_number c1
    if iupac_int_first = -1 then .error "Not a IUPAC character"
    else
      let iupac_int_second := nucleotide_to_number c2
      if iupac_int_second = -1 then .error "Not a IUPAC character"
      else
        match encode_nucleotides rest with
        | .error e => .error e
        | .ok bs => .ok ((iupac_int_first.toNat * 16 + iupac_int_second.toNat) :: bs)

/-- `BamRecord_set_sequence` (`_bammodule.c`): require an ASCII string;
optionally a quality byte string of equal length (otherwise `0xFF` fill);
pack the nucleotides and update `seq`, `qual`, `l_seq` and `block_size`. -/
def BamRecord_set_sequence (r : BamRecord) (sequence : List Nat)
    (qualities : Option (List Nat)) : Except String BamRecord :=
  if ¬ sequence.all (· < 128) then
    .error "sequence must only contain ASCII characters"
  else
    let sequence_length := sequence.length
    match qualities with
    | some q =>
      if q.length ≠ sequence_length then
        .error "sequence and qualities must have the same length"
      else
        match encode_nucleotides sequence with
        | .error e => .error e
        | .ok encoded =>
          let encoded_length := (sequence_length + 1) / 2
          let old_encoded_length := (r.l_seq + 1) / 2
          .ok { r with
            seq := encoded
            qual := q
            l_seq := sequence_length % 4294967296
            block_size := (((r.block_size : Int) + sequence_length +
              encoded_length - (r.l_seq + old_encoded_length)) %
              (4294967296 : Int)).toNat }
    | none =>
      match encode_nucleotides sequence with
      | .error e => .error e
      | .ok encoded =>
        let encoded_length := (sequence_length + 1) / 2
        let old_encoded_length := (r.l_seq + 1) / 2
        .ok { r with
          seq := encoded
          qual := List.replicate sequence_length 255
          l_seq := sequence_length % 4294967296
          block_size := (((r.block_size : Int) + sequence_length +
            encoded_length - (r.l_seq + old_encoded_length)) %
            (4294967296 : Int)).toNat }

/-- `BamRecord_get_sequence` (`_bammodule.c`): decode every packed byte to a
character pair through the table, keeping the first `l_seq` characters. -/
def BamRecord_get_sequence (r : BamRecord) : List Nat :=
  (r.seq.flatMap number_to_nucleotide_pair_le).take r.l_seq

/-! ## Record serialization (`BamRecord_to_ptr` / `BamRecord_to_bytes`) -/

/-- `BamRecord_to_ptr` (`_bammodule.c`): the full byte stream written by the
serializer — the 36 header bytes (including `block_size` itself), the read
name, a NUL, the cigar words, the packed sequence, the qualities and the
tag blob. -/
def BamRecord_to_ptr (r : BamRecord) : List Nat :=
  u32le r.block_size ++ i32le r.refID ++ i32le r.pos ++
  [r.l_read_name] ++ [r.mapq] ++ u16le r.bin ++ u16le r.n_cigar_op ++
  u16le r.flag ++ u32le r.l_seq ++ i32le r.next_refID ++ i32le r.next_pos ++
  i32le r.tlen ++
  r.read_name ++ [0] ++ wordsToBytes r.cigar ++ r.seq ++ r.qual ++ r.tags

/-- `BamRecord_to_bytes` (`_bammodule.c`): the returned bytes object is
allocated with `block_size + 4` bytes; when the children are out of sync with
the counters the C writer runs past (or short of) that allocation, so the
model keeps exactly the allocated prefix. -/
def BamRecord_to_bytes (r : BamRecord) : List Nat :=
  (BamRecord_to_ptr r).take (r.block_size + 4)

/-! ## BamIterator (`_bammodule.c`) -/

/-- Result of one `BamIterator_iternext` step: end of stream, a raised
exception, or a parsed record together with the advanced position. -/
inductive IterResult where
  | stop : IterResult
  | err : String → IterResult
  | record : BamRecord → Nat → IterResult
  deriving DecidableEq, Repr

/-- `BamIterator_iternext` (`_bammodule.c`): copy the 36 leading bytes into
the header fields, bounds-check `block_size + 4` against the buffer, then
slice the five children by the header counters; the tag blob is whatever
remains of the record's span.  A negative child size makes the CPython bytes
constructor fail (reported as an error); no ASCII validation is performed. -/
def BamIterator_iternext (buf : List Nat) (pos : Nat) : IterResult :=
  if pos ≥ buf.length then .stop
  else if buf.length - pos < 36 then .err "Truncated BAM record"
  else
    let hdr := buf.drop pos
    let block_size := leU32 hdr
    let refID := toI32 (leU32 (hdr.drop 4))
    let pos_field := toI32 (leU32 (hdr.drop 8))
    let l_read_name := (hdr.drop 12).getD 0 0
    let mapq := (hdr.drop 13).getD 0 0
    let bin := leU16 (hdr.drop 14)
    let n_cigar_op := leU16 (hdr.drop 16)
    let flag := leU16 (hdr.drop 18)
    let l_seq := leU32 (hdr.drop 20)
    let next_refID := toI32 (leU32 (hdr.drop 24))
    let next_pos := toI32 (leU32 (hdr.drop 28))
    let tlen := toI32 (leU32 (hdr.drop 32))
    let record_length := block_size + 4
    if pos + record_length > buf.length then .err "Truncated BAM record"
    else if l_read_name = 0 then
      -- PyBytes_FromStringAndSize(buf, l_read_name - 1) fails on size -1
      .err "no memory"
    else
      let p1 := pos + 36
      let read_name := (buf.drop p1).take (l_read_name - 1)
      let p2 := p1 + l_read_name
      let cigar := readWords (buf.drop p2) n_cigar_op
      let p3 := p2 + 4 * n_cigar_op
      let seq_length := (l_seq + 1) / 2
      let seq := (buf.drop p3).take seq_length
      let p4 := p3 + seq_length
      let qual := (buf.drop p4).take l_seq
      let p5 := p4 + l_seq
      if pos + record_length < p5 then
        -- the remaining tag length is negative: bytes creation fails
        .err "no memory"
      else
        let tags_length := pos + record_length - p5
        let tags := (buf.drop p5).take tags_length
        .record
          { block_size := block_size, refID := refID, pos := pos_field
            l_read_name := l_read_name, mapq := mapq, bin := bin
            n_cigar_op := n_cigar_op, flag := flag, l_seq := l_seq
            next_refID := next_refID, next_pos := next_pos, tlen := tlen
            read_name := read_name, cigar := cigar, seq := seq
            qual := qual, tags := tags }
          (pos + record_length)

/-! ## Tag scanning (`skip_tag` / `find_tag`, `_bammodule.c`) -/

/-- `value_type_size` (`_bammodule.c`): payload size of a scalar tag type
byte, 0 for an unknown type (which the callers treat as an error). -/
def value_type_size (value_type : Nat) : Nat :=
  if value_type = 65 ∨ value_type = 99 ∨ value_type = 67 then 1        -- A c C
  else if value_type = 115 ∨ value_type = 83 then 2                    -- s S
  else if value_type = 102 ∨ value_type = 105 ∨ value_type = 73 then 4 -- f i I
  else if value_type = 100 then 8                                      -- d
  else 0

/-- `skip_tag` (`_bammodule.c`): starting index of the entry after the one at
`start`, scanning inside `tags[0..endp)`.  The source treats a remaining
span of at most 4 bytes as truncated, and for `B` arrays requires the first
item byte to lie strictly inside the buffer even when the item count is 0. -/
def skip_tag (tags : List Nat) (start endp : Nat) : Except String Nat :=
  if start ≥ endp then .ok endp
  else if endp - start ≤ 4 then .error "truncated tag"
  else
    let type := tags.getD (start + 2) 0
    if type = 72 ∨ type = 90 then  -- H Z: scan for the terminating NUL
      match ((tags.drop (start + 3)).take (endp - (start + 3))).findIdx?
          (· = 0) with
      | none => .error "truncated tag"
      | some i => .ok (start + 3 + i + 1)
    else if type = 66 then         -- B
      let array_type := tags.getD (start + 3) 0
      let value_length := value_type_size array_type
      if value_length = 0 then .error "unknown value type"
      else if start + 8 ≥ endp then .error "truncated tag"
      else
        let array_length := leU32 (tags.drop (start + 4))
        let value_end := start + 8 + array_length * value_length
        if value_end > endp then .error "truncated tag"
        else .ok value_end
    else
      let value_length := value_type_size type
      if value_length = 0 then .error "unknown value type"
      else
        let value_end := start + 3 + value_length
        if value_end > endp then .error "truncated tag"
        else .ok value_end

/-- `find_tag` (`_bammodule.c`): linear scan over the tag blob.  Returns the
entry's starting index, `none` when the blob is exhausted without a match,
or the error raised while skipping a malformed entry.  Termination: every
successful `skip_tag` strictly advances the cursor. -/
def find_tag_from (tags : List Nat) (t1 t2 endp tag_ptr : Nat) :
    Except String (Option Nat) :=
  if h : tag_ptr < endp then
    if tag_ptr + 2 ≥ endp then .error "truncated tag"
    else if tags.getD tag_ptr 0 = t1 ∧ tags.getD (tag_ptr + 1) 0 = t2 then
      .ok (some tag_ptr)
    else
      match hskip : skip_tag tags tag_ptr endp with
      | .error e => .error e
      | .ok next => find_tag_from tags t1 t2 endp next
  else .ok none
termination_by endp - tag_ptr
decreasing_by
  have hgt : tag_ptr < next := by
    simp only [skip_tag] at hskip
    repeat' split at hskip
    all_goals simp at hskip
    all_goals omega
  omega

/-- `find_tag` entry point: scan the whole blob. -/
def find_tag (tags : List Nat) (t1 t2 : Nat) : Except String (Option Nat) :=
  find_tag_from tags t1 t2 tags.length 0

/-! ## Cigar string parsing (`BamCigar__new___`, `_bammodule.c`) -/

/-- Bytes the C locale's `isspace` accepts, as skipped by `strtol`. -/
def c_isspace (b : Nat) : Bool :=
  b = 32 ∨ b = 9 ∨ b = 10 ∨ b = 11 ∨ b = 12 ∨ b = 13

/-- Decimal digit bytes. -/
def c_isdigit (b : Nat) : Bool :=
  48 ≤ b ∧ b ≤ 57

/-- Value of a run of decimal digit bytes. -/
def digitsToNat (ds : List Nat) : Nat :=
  ds.foldl (fun a d => a * 10 + (d - 48)) 0

/-- `strtol(cursor, &endptr, 10)` as used by the cigar string parser: skip
whitespace, read an optional sign and a digit run; when no digits follow,
the result is 0 and `endptr` is the original cursor.  `strtol`'s clamping of
out-of-`long`-range values is omitted: every clamped value still lies
outside the caller's accepted range `0..2^28-1`, so the caller's observable
behaviour is identical. -/
def strtol10 (cs : List Nat) : Int × List Nat :=
  let ws := cs.dropWhile (fun b => c_isspace b)
  let body := if ws.head? = some 45 ∨ ws.head? = some 43 then ws.tail else ws
  let ds := body.takeWhile (fun b => c_isdigit b)
  if ds.isEmpty then (0, cs)
  else if ws.head? = some 45 then
    (-(digitsToNat ds : Int), body.dropWhile (fun b => c_isdigit b))
  else ((digitsToNat ds : Int), body.dropWhile (fun b => c_isdigit b))

/-- Main loop of `BamCigar__new___`: while the cursor has not reached the
end, parse a count with `strtol`, validate it, look the following operation
byte up in the table, and store the generated word.  The loop consumes at
least the operation byte on every iteration, so running it with the input
length as (structural) fuel performs exactly the C loop; the fuel-exhausted
branch is unreachable. -/
def cigarParseGo : Nat → List Nat → Except String (List Nat)
  | _, [] => .ok []
  | 0, _ :: _ => .error "unreachable: the loop consumes a byte per iteration"
  | fuel + 1, cs =>
    let count := (strtol10 cs).1
    if count < 0 then .error "Invalid cigarstring"
    else if count > (BAM_CIGAR_MAX_COUNT : Int) then
      .error "Maximum count exceeded"
    else
      match (strtol10 cs).2 with
      | [] => .error "Truncated cigarstring"
      | c :: rest2 =>
        let operation := bam_cigar_table c
        if operation = -1 then .error "Invalid cigar operation"
        else
          match cigarParseGo fuel rest2 with
          | .error e => .error e
          | .ok ws => .ok (bam_cigar_gen count operation :: ws)

/-- The parse loop entered with enough fuel for the whole string. -/
def cigarParseLoop (cs : List Nat) : Except String (List Nat) :=
  cigarParseGo cs.length cs

/-- `BamCigar__new___` (`_bammodule.c`): parse a cigar string given as ASCII
bytes; reject non-ASCII input up front. -/
def BamCigar__new___ (cigarstring : List Nat) : Except String (List Nat) :=
  if ¬ cigarstring.all (· < 128) then
    .error "cigarstring must be a valid ascii string"
  else
    cigarParseLoop cigarstring

/-! ## Well-formedness predicates and concrete example values -/

/-- Internal consistency of a record: the counters match the children and
`block_size` matches the serialized size, all fields within their on-wire
ranges.  These are the invariants the spec states in its section 3; every
well-formed record serializes to exactly `block_size + 4` bytes. -/
def bamWF (r : BamRecord) : Prop :=
  r.block_size = 32 + r.l_read_name + 4 * r.n_cigar_op + (r.l_seq + 1) / 2 +
    r.l_seq + r.tags.length ∧
  r.block_size < 4294967296 ∧
  r.l_read_name = r.read_name.length + 1 ∧ r.l_read_name ≤ 255 ∧
  r.n_cigar_op = r.cigar.length ∧ r.n_cigar_op < 65536 ∧
  r.seq.length = (r.l_seq + 1) / 2 ∧ r.qual.length = r.l_seq ∧
  r.l_seq < 4294967296 ∧
  r.mapq < 256 ∧ r.bin < 65536 ∧ r.flag < 65536 ∧
  -2147483648 ≤ r.refID ∧ r.refID < 2147483648 ∧
  -2147483648 ≤ r.pos ∧ r.pos < 2147483648 ∧
  -2147483648 ≤ r.next_refID ∧ r.next_refID < 2147483648 ∧
  -2147483648 ≤ r.next_pos ∧ r.next_pos < 2147483648 ∧
  -2147483648 ≤ r.tlen ∧ r.tlen < 2147483648 ∧
  (∀ w ∈ r.cigar, w < 4294967296) ∧
  (∀ x ∈ r.read_name, x < 256) ∧ (∀ x ∈ r.seq, x < 256) ∧
  (∀ x ∈ r.qual, x < 256) ∧ (∀ x ∈ r.tags, x < 256)

instance (r : BamRecord) : Decidable (bamWF r) := by
  unfold bamWF; exact inferInstance

/-- The validity gloss used by the round-trip claim itself: the header
counters of the blob are consistent with `block_size` (and the blob is made
of bytes).  Stated following the spec's words; note it says nothing about
the read name's NUL terminator. -/
def blobCountersConsistent (b : List Nat) : Prop :=
  36 ≤ b.length ∧ (∀ x ∈ b, x < 256) ∧ b.length = leU32 b + 4 ∧
  1 ≤ b.getD 12 0 ∧
  36 + b.getD 12 0 + 4 * leU16 (b.drop 16) + (leU32 (b.drop 20) + 1) / 2 +
    leU32 (b.drop 20) ≤ b.length

instance (b : List Nat) : Decidable (blobCountersConsistent b) := by
  unfold blobCountersConsistent; exact inferInstance

/-- A valid single-record blob: counters consistent with `block_size`, plus
the wire-format requirement that the read-name field is NUL-terminated. -/
def validBlob (b : List Nat) : Prop :=
  blobCountersConsistent b ∧ b.getD (36 + b.getD 12 0 - 1) 0 = 0

instance (b : List Nat) : Decidable (validBlob b) := by
  unfold validBlob; exact inferInstance

/-- The record built by `BamRecord()` with every argument left at its
default. -/
def bamDefaultRecord : BamRecord :=
  BamRecord_init (-1) (-1) [] 255 0 (-1) (-1)

/-- The spec's scenario 1 record: empty unmapped record named `r`. -/
def recordEx : BamRecord :=
  { block_size := 34, refID := -1, pos := -1, l_read_name := 2, mapq := 255
    bin := 0, n_cigar_op := 0, flag := 4, l_seq := 0, next_refID := -1
    next_pos := -1, tlen := 0, read_name := [114], cigar := [], seq := []
    qual := [], tags := [] }

/-- The 38-byte serialization of `recordEx` (scenario 1 of the spec). -/
def blobEx : List Nat :=
  [34, 0, 0, 0, 255, 255, 255, 255, 255, 255, 255, 255, 2, 255, 0, 0, 0, 0,
   4, 0, 0, 0, 0, 0, 255, 255, 255, 255, 255, 255, 255, 255, 0, 0, 0, 0,
   114, 0]

/-- `blobEx` with the read name's NUL terminator replaced by the byte `X`:
the counters are still consistent with `block_size`. -/
def blobNoNul : List Nat :=
  [34, 0, 0, 0, 255, 255, 255, 255, 255, 255, 255, 255, 2, 255, 0, 0, 0, 0,
   4, 0, 0, 0, 0, 0, 255, 255, 255, 255, 255, 255, 255, 255, 0, 0, 0, 0,
   114, 88]

/-- `blobEx` with the read name replaced by the non-ASCII byte `0x80`. -/
def blobHighBit : List Nat :=
  [34, 0, 0, 0, 255, 255, 255, 255, 255, 255, 255, 255, 2, 255, 0, 0, 0, 0,
   4, 0, 0, 0, 0, 0, 255, 255, 255, 255, 255, 255, 255, 255, 0, 0, 0, 0,
   128, 0]

/-- The record `blobHighBit` decodes to: like `recordEx`, but the read name
is the single non-ASCII byte `0x80`. -/
def recordHighBit : BamRecord :=
  { recordEx with read_name := [128] }

/-- A record whose stored CIGAR is the legitimate two-operation `5S3M` with
`l_seq = 5` and an empty tag blob (so no `CG` tag is present). -/
def recordSoftClip : BamRecord :=
  { block_size := 50, refID := 0, pos := 100, l_read_name := 2, mapq := 60
    bin := 0, n_cigar_op := 2, flag := 0, l_seq := 5, next_refID := -1
    next_pos := -1, tlen := 0, read_name := [114], cigar := [84, 48]
    seq := [18, 72, 16], qual := [30, 30, 30, 30, 30], tags := [] }

/-- The 16 valid IUPAC bytes `=ACMGRSVTWYHKDBN`. -/
def iupacBytes : List Nat :=
  [61, 65, 67, 77, 71, 82, 83, 86, 84, 87, 89, 72, 75, 68, 66, 78]

/-! ## Theorems -/

/-- C1: the claim states that after every mutator `block_size` equals
`32 + l_read_name + 4*n_cigar_op + ceil(l_seq/2) + l_seq + len(tags)`.  The
cigar setter violates it: installing a one-operation CIGAR on a fresh
default record leaves `block_size` at 33 while the invariant's right-hand
side becomes 37, because `BamRecord_set_cigar` never updates `block_size`. -/
theorem C1_block_size_after_set_cigar :
    BamRecord_set_cigar bamDefaultRecord [16] =
      .ok { bamDefaultRecord with cigar := [16], n_cigar_op := 1 } ∧
    ({ bamDefaultRecord with cigar := [16], n_cigar_op := 1 } :
      BamRecord).block_size = 33 ∧
    32 + ({ bamDefaultRecord with cigar := [16], n_cigar_op := 1 } :
        BamRecord).l_read_name +
      4 * ({ bamDefaultRecord with cigar := [16], n_cigar_op := 1 } :
        BamRecord).n_cigar_op +
      (({ bamDefaultRecord with cigar := [16], n_cigar_op := 1 } :
        BamRecord).l_seq + 1) / 2 +
      ({ bamDefaultRecord with cigar := [16], n_cigar_op := 1 } :
        BamRecord).l_seq +
      ({ bamDefaultRecord with cigar := [16], n_cigar_op := 1 } :
        BamRecord).tags.length = 37 := by
  decide

/-- C3: the claim states that the constructor packs
`(coffset << 16) | uoffset`, so that `VirtualFileOffset(0x1234, 0x5678)` has
`_voffset = 0x123400005678`.  The source uses a bitwise AND, so the stored
value is 0 (the shifted coffset and the 16-bit uoffset share no bits) and
both accessors return 0 as well. -/
theorem C3_voffset_uses_and :
    VirtualFileOffset__init__ 4660 22136 = .ok 0 ∧
    (0 : Nat) ≠ 20014547621496 ∧
    VirtualFileOffset_coffset_get 0 = 0 ∧
    VirtualFileOffset_uoffset_get 0 = 0 := by
  decide

/-- C5: the claim states that a record whose stored CIGAR is a legitimate
two-operation `[softclip(l_seq), op]` with no `CG` tag in the tag blob gets
its CIGAR back from the getter.  The source raises the long-CIGAR
`NotImplementedError` on every such record without consulting the tags:
here the tag blob is empty (its own `find_tag` has no `CG` entry), yet the
getter fails. -/
theorem C5_get_cigar_eager_raise :
    BamRecord_get_cigar recordSoftClip =
      .error "Support for cigars longer than 65536 has not yet been implemented." ∧
    find_tag recordSoftClip.tags 67 71 = .ok none := by
  constructor
  · decide
  · simp [find_tag, find_tag_from, recordSoftClip]

/-- C6: the claim states that the cigar setter accepts every cigar with at
most 65535 operations and reports NotSupported above that.  The source's
check is `> 65536`, so a 65536-operation cigar is accepted — and since
`n_cigar_op` is a `uint16_t`, the stored count silently truncates to 0. -/
theorem C6_set_cigar_off_by_one :
    BamRecord_set_cigar bamDefaultRecord (List.replicate 65536 16) =
      .ok { bamDefaultRecord with
              cigar := List.replicate 65536 16
              n_cigar_op := 0 } := by
  simp only [BamRecord_set_cigar, List.length_replicate]
  norm_num

/-- C7: the claim states that `from_iter` returns no Cigar value whenever
some pair's length is out of `0..2^28-1`.  The source's count-range branch
formats an error but is missing the error-exit, so `from_iter` still
returns a cigar, with the word truncated: the out-of-range pair `(0, 2^28)`
yields the single word 0. -/
theorem C7_from_iter_missing_exit :
    BamCigar_from_iter [((0 : Int), (268435456 : Int))] = .ok [0] ∧
    (268435456 : Nat) > BAM_CIGAR_MAX_COUNT := by
  decide

/-- C9: the claim states that on a blob that is a well-formed concatenation
of complete entries — including one ending in a complete 4-byte `A` entry
or a `B` entry with item count 0 — looking up an absent tag reports
NotFound, never a truncated-tag error.  The source's `skip_tag` treats a
remaining span of exactly 4 bytes (`XYAa`) and a count-0 `B` entry at the
end of the blob (`XYBC` + zero count) as truncated, so `find_tag` for the
absent `NM` errors instead of reporting not-found. -/
theorem C9_find_tag_rejects_final_entries :
    find_tag [88, 89, 65, 97] 78 77 = .error "truncated tag" ∧
    find_tag [88, 89, 66, 67, 0, 0, 0, 0] 78 77 = .error "truncated tag" := by
  constructor <;>
    simp [find_tag, find_tag_from, skip_tag, value_type_size, leU32]

/-- The operation table yields either -1 or a code in 0..9. -/
theorem bam_cigar_table_range (b : Nat) :
    bam_cigar_table b = -1 ∨
      (0 ≤ bam_cigar_table b ∧ bam_cigar_table b ≤ 9) := by
  unfold bam_cigar_table
  split_ifs <;> norm_num

/-- Every word built by `from_iter` satisfies the Cigar invariants: the
operation is validated before the word is generated, and the 32-bit
truncation keeps the decoded run length below `2^28`. -/
theorem from_iter_invariants (ps : List (Int × Int)) (ws : List Nat)
    (h : BamCigar_from_iter ps = .ok ws) :
    ∀ w ∈ ws, bam_cigar_op w ≤ 9 ∧ bam_cigar_oplen w ≤ 268435455 := by
  induction ps generalizing ws with
  | nil =>
    simp only [BamCigar_from_iter, Except.ok.injEq] at h
    subst h
    simp
  | cons p rest ih =>
    obtain ⟨operation, count⟩ := p
    simp only [BamCigar_from_iter] at h
    split at h
    · exact absurd h (by simp)
    · rename_i hop
      push_neg at hop
      split at h
      · exact absurd h (by simp)
      · rename_i ws0 hws0
        simp only [Except.ok.injEq] at h
        subst h
        intro w hw
        rcases List.mem_cons.mp hw with hw | hw
        · subst hw
          unfold bam_cigar_gen bam_cigar_op bam_cigar_oplen
          constructor <;> omega
        · exact ih ws0 hws0 w hw

/-- Every word produced by the cigar string parse loop satisfies the Cigar
invariants: the count is range-checked and the operation comes from the
table. -/
theorem cigarParseGo_invariants (fuel : Nat) :
    ∀ (cs ws : List Nat), cigarParseGo fuel cs = .ok ws →
      ∀ w ∈ ws, bam_cigar_op w ≤ 9 ∧ bam_cigar_oplen w ≤ 268435455 := by
  induction fuel with
  | zero =>
    intro cs ws h
    cases cs with
    | nil =>
      simp only [cigarParseGo, Except.ok.injEq] at h
      subst h
      simp
    | cons c0 cs0 => exact absurd h (by simp [cigarParseGo])
  | succ fuel ih =>
    intro cs ws h
    cases cs with
    | nil =>
      simp only [cigarParseGo, Except.ok.injEq] at h
      subst h
      simp
    | cons c0 cs0 =>
      simp only [cigarParseGo] at h
      split at h
      · exact absurd h (by simp)
      · split at h
        · exact absurd h (by simp)
        · rename_i hneg hmax
          split at h
          · exact absurd h (by simp)
          · rename_i c rest2 hrest
            split at h
            · exact absurd h (by simp)
            · rename_i hop
              split at h
              · exact absurd h (by simp)
              · rename_i ws0 hws0
                simp only [Except.ok.injEq] at h
                subst h
                intro w hw
                rcases List.mem_cons.mp hw with hw | hw
                · subst hw
                  rcases bam_cigar_table_range c with ht | ht
                  · exact absurd ht hop
                  · rw [BAM_CIGAR_MAX_COUNT] at hmax
                    unfold bam_cigar_gen bam_cigar_op bam_cigar_oplen
                    constructor <;> omega
                · exact ih rest2 ws0 hws0 w hw

/-- C10 counterexample: the claim states that every Cigar observable through
any public constructor satisfies operation <= 9 and run length <= 2^28-1.
`from_buffer` performs no content check: the four bytes `FF FF FF FF`
construct the word `0xFFFFFFFF`, whose operation code is 15. -/
theorem C10_from_buffer_counterexample :
    BamCigar_from_buffer [255, 255, 255, 255] = .ok [4294967295] ∧
    bam_cigar_op 4294967295 = 15 ∧ ¬ bam_cigar_op 4294967295 ≤ 9 := by
  decide

/-- Valid IUPAC bytes have a table code in 0..15 and are ASCII. -/
theorem nucleotide_to_number_mem {c : Nat} (h : c ∈ iupacBytes) :
    nucleotide_to_number c ≠ -1 ∧ (nucleotide_to_number c).toNat ≤ 15 ∧
      c < 128 := by
  fin_cases h <;> decide

/-- Encoding a list of valid IUPAC bytes succeeds, produces `ceil(n/2)`
packed bytes, and for odd `n` the final byte has a zero low nibble. -/
theorem encode_nucleotides_valid :
    ∀ (cs : List Nat), (∀ c ∈ cs, c ∈ iupacBytes) →
      ∃ bs, encode_nucleotides cs = .ok bs ∧ bs.length = (cs.length + 1) / 2 ∧
        (cs.length % 2 = 1 → bs.getLast?.getD 0 % 16 = 0)
  | [], _ => ⟨[], by simp [encode_nucleotides]⟩
  | [c], h => by
    obtain ⟨h1, h2, _⟩ := nucleotide_to_number_mem (h c (by simp))
    refine ⟨[(nucleotide_to_number c).toNat * 16 + (nucleotide_to_number 0).toNat],
      ?_, by simp, ?_⟩
    · simp [encode_nucleotides, h1]
    · intro _
      have h0 : (nucleotide_to_number 0).toNat = 0 := by decide
      simp [h0]
  | c1 :: c2 :: rest, h => by
    obtain ⟨h1, h1b, _⟩ := nucleotide_to_number_mem (h c1 (by simp))
    obtain ⟨h2, h2b, _⟩ := nucleotide_to_number_mem (h c2 (by simp))
    obtain ⟨bs, hbs, hlen, hodd⟩ :=
      encode_nucleotides_valid rest (fun c hc => h c (by simp [hc]))
    refine ⟨((nucleotide_to_number c1).toNat * 16 +
        (nucleotide_to_number c2).toNat) :: bs, ?_, ?_, ?_⟩
    · simp [encode_nucleotides, h1, h2, hbs]
    · simp only [List.length_cons, hlen]; omega
    · intro hoddlen
      simp only [List.length_cons] at hoddlen
      have hro : rest.length % 2 = 1 := by omega
      have hne : bs ≠ [] := by
        intro hb
        rw [hb] at hlen
        simp at hlen
        omega
      cases bs with
      | nil => exact absurd rfl hne
      | cons b l =>
        rw [List.getLast?_cons_cons]
        exact hodd hro

/-- C4: for every ASCII string of odd length over the IUPAC alphabet
`=ACMGRSVTWYHKDBN`, `set_sequence` succeeds, storing `ceil(n/2)` packed
bytes whose last byte has a zero low nibble, with `l_seq = n`; and
concretely `set_sequence("ACG")` stores `seq = [0x12, 0x40]`, `l_seq = 3`,
after which `get_sequence` returns `"ACG"` (bytes `[65, 67, 71]`). -/
theorem C4_set_sequence_odd :
    (∀ (r : BamRecord) (cs : List Nat), cs.length % 2 = 1 →
      (∀ c ∈ cs, c ∈ iupacBytes) → cs.length < 4294967296 →
      ∃ r', BamRecord_set_sequence r cs none = .ok r' ∧
        r'.l_seq = cs.length ∧ r'.seq.length = (cs.length + 1) / 2 ∧
        r'.seq.getLast?.getD 0 % 16 = 0) ∧
    (∃ r', BamRecord_set_sequence bamDefaultRecord [65, 67, 71] none = .ok r' ∧
      r'.seq = [18, 64] ∧ r'.l_seq = 3 ∧
      BamRecord_get_sequence r' = [65, 67, 71]) := by
  constructor
  · intro r cs hodd hval hlen
    have hascii : cs.all (· < 128) = true := by
      rw [List.all_eq_true]
      intro c hc
      exact decide_eq_true (nucleotide_to_number_mem (hval c hc)).2.2
    obtain ⟨bs, hbs, hbslen, hlast⟩ := encode_nucleotides_valid cs hval
    simp only [BamRecord_set_sequence, hascii, hbs, not_true, if_false,
      Bool.not_true]
    refine ⟨_, rfl, ?_, ?_, ?_⟩
    · simp only []
      omega
    · simpa using hbslen
    · simpa using hlast hodd
  · exact ⟨{ bamDefaultRecord with
        seq := [18, 64]
        qual := [255, 255, 255]
        l_seq := 3
        block_size := 38 }, by decide, by decide, by decide, by decide⟩

/-- C4 witness: the general clause applied to the single-character IUPAC
sequence `"A"` on a default record. -/
theorem C4_set_sequence_odd_witness :
    ∃ r', BamRecord_set_sequence bamDefaultRecord [65] none = .ok r' ∧
      r'.l_seq = ([65] : List Nat).length ∧
      r'.seq.length = (([65] : List Nat).length + 1) / 2 ∧
      r'.seq.getLast?.getD 0 % 16 = 0 :=
  C4_set_sequence_odd.1 bamDefaultRecord [65] (by decide) (by decide) (by decide)

/-! ### Byte-level round-trip lemmas -/

/-- Reading back a serialized 32-bit value. -/
theorem leU32_u32le_append (n : Nat) (rest : List Nat) (h : n < 4294967296) :
    leU32 (u32le n ++ rest) = n := by
  simp only [u32le, List.cons_append, List.nil_append, leU32,
    List.getD_cons_zero, List.getD_cons_succ]
  omega

/-- Reading back a serialized 16-bit value. -/
theorem leU16_u16le_append (n : Nat) (rest : List Nat) (h : n < 65536) :
    leU16 (u16le n ++ rest) = n := by
  simp only [u16le, List.cons_append, List.nil_append, leU16,
    List.getD_cons_zero, List.getD_cons_succ]
  omega

/-- Dropping a serialized 32-bit value. -/
theorem drop4_u32le (n : Nat) (rest : List Nat) :
    (u32le n ++ rest).drop 4 = rest := by
  simp [u32le]

/-- Dropping a serialized signed 32-bit value. -/
theorem drop4_i32le (z : Int) (rest : List Nat) :
    (i32le z ++ rest).drop 4 = rest := by
  simp [i32le, u32le]

/-- Dropping a serialized 16-bit value. -/
theorem drop2_u16le (n : Nat) (rest : List Nat) :
    (u16le n ++ rest).drop 2 = rest := by
  simp [u16le]

/-- Two's-complement round trip: encoding then decoding an `int32`. -/
theorem toI32_emod (z : Int) (h1 : -2147483648 ≤ z) (h2 : z < 2147483648) :
    toI32 ((z % (4294967296 : Int)).toNat) = z := by
  unfold toI32
  split <;> omega

/-- Decoding then re-encoding an `int32` bit pattern. -/
theorem emod_toI32 (n : Nat) (h : n < 4294967296) :
    ((toI32 n % (4294967296 : Int)).toNat) = n := by
  unfold toI32
  split <;> omega

/-- The signed decode of a 32-bit pattern lies in the `int32` range. -/
theorem toI32_range (n : Nat) (h : n < 4294967296) :
    -2147483648 ≤ toI32 n ∧ toI32 n < 2147483648 := by
  unfold toI32
  split <;> omega

/-- Reading back a serialized signed 32-bit value. -/
theorem toI32_i32le_append (z : Int) (rest : List Nat)
    (h1 : -2147483648 ≤ z) (h2 : z < 2147483648) :
    toI32 (leU32 (i32le z ++ rest)) = z := by
  rw [i32le, leU32_u32le_append _ _ (by omega)]
  exact toI32_emod z h1 h2

/-- Default-valued indexing commutes with `drop`. -/
theorem getD_drop (l : List Nat) (m d : Nat) :
    (l.drop m).getD 0 d = l.getD m d := by
  simp [List.getD_eq_getElem?_getD, List.getElem?_drop]

/-- Bytes of a byte list are bounded, including out-of-range defaults. -/
theorem getD_lt_256 {l : List Nat} (h : ∀ x ∈ l, x < 256) (i : Nat) :
    l.getD i 0 < 256 := by
  by_cases hi : i < l.length
  · rw [List.getD_eq_getElem l 0 hi]
    exact h _ (List.getElem_mem hi)
  · rw [List.getD_eq_default _ _ (by omega)]
    omega

/-- A 32-bit read from a byte list is below `2^32`. -/
theorem leU32_lt {l : List Nat} (h : ∀ x ∈ l, x < 256) :
    leU32 l < 4294967296 := by
  have h0 := getD_lt_256 h 0
  have h1 := getD_lt_256 h 1
  have h2 := getD_lt_256 h 2
  have h3 := getD_lt_256 h 3
  unfold leU32
  omega

/-- A 16-bit read from a byte list is below `2^16`. -/
theorem leU16_lt {l : List Nat} (h : ∀ x ∈ l, x < 256) :
    leU16 l < 65536 := by
  have h0 := getD_lt_256 h 0
  have h1 := getD_lt_256 h 1
  unfold leU16
  omega

/-- Length of serialized cigar words. -/
theorem wordsToBytes_length (ws : List Nat) :
    (wordsToBytes ws).length = 4 * ws.length := by
  induction ws with
  | nil => simp [wordsToBytes]
  | cons w ws ih => simp [wordsToBytes, u32le, ih]; omega

/-- `readWords` always returns the requested number of words. -/
theorem readWords_length (b : List Nat) (n : Nat) :
    (readWords b n).length = n := by
  induction n generalizing b with
  | zero => simp [readWords]
  | succ n ih => simp [readWords, ih]

/-- Words read from a byte list are below `2^32`. -/
theorem readWords_lt {b : List Nat} (h : ∀ x ∈ b, x < 256) (n : Nat) :
    ∀ w ∈ readWords b n, w < 4294967296 := by
  induction n generalizing b with
  | zero => simp [readWords]
  | succ n ih =>
    intro w hw
    simp only [readWords, List.mem_cons] at hw
    rcases hw with hw | hw
    · subst hw; exact leU32_lt h
    · exact ih (fun x hx => h x (List.drop_subset _ _ hx)) w hw

/-- Parsing back serialized cigar words. -/
theorem readWords_wordsToBytes (ws : List Nat) (rest : List Nat)
    (h : ∀ w ∈ ws, w < 4294967296) :
    readWords (wordsToBytes ws ++ rest) ws.length = ws := by
  induction ws with
  | nil => simp [readWords]
  | cons w ws ih =>
    simp only [wordsToBytes, List.length_cons, readWords, List.append_assoc]
    rw [leU32_u32le_append w _ (h w (by simp)), drop4_u32le,
      ih (fun x hx => h x (by simp [hx]))]

/-- Serializing words read from a byte list restores the bytes. -/
theorem wordsToBytes_readWords (n : Nat) (b : List Nat)
    (h4 : 4 * n ≤ b.length) (hb : ∀ x ∈ b, x < 256) :
    wordsToBytes (readWords b n) = b.take (4 * n) := by
  induction n generalizing b with
  | zero => simp [readWords, wordsToBytes]
  | succ n ih =>
    match b, h4 with
    | b0 :: b1 :: b2 :: b3 :: tail, h4' =>
      have hb0 : b0 < 256 := hb b0 (by simp)
      have hb1 : b1 < 256 := hb b1 (by simp)
      have hb2 : b2 < 256 := hb b2 (by simp)
      have hb3 : b3 < 256 := hb b3 (by simp)
      have htake : (b0 :: b1 :: b2 :: b3 :: tail).take (4 * (n + 1)) =
          b0 :: b1 :: b2 :: b3 :: tail.take (4 * n) := by
        rw [show 4 * (n + 1) = 4 * n + 1 + 1 + 1 + 1 from by omega]
        simp [List.take_succ_cons]
      rw [htake]
      simp only [readWords, wordsToBytes]
      have hle : leU32 (b0 :: b1 :: b2 :: b3 :: tail) =
          b0 + 256 * b1 + 65536 * b2 + 16777216 * b3 := by
        simp [leU32, List.getD_cons_zero, List.getD_cons_succ]
      rw [hle]
      have hdrop : (b0 :: b1 :: b2 :: b3 :: tail).drop 4 = tail := by simp
      rw [hdrop]
      have hu : u32le (b0 + 256 * b1 + 65536 * b2 + 16777216 * b3) =
          [b0, b1, b2, b3] := by
        simp only [u32le, List.cons.injEq, and_true]
        refine ⟨by omega, by omega, by omega, by omega⟩
      rw [hu]
      have hlen : 4 * n ≤ tail.length := by
        have h' := h4'
        simp only [List.length_cons] at h'
        omega
      rw [ih tail hlen (fun x hx => hb x (by simp [hx]))]
      simp

/-- Serializing a read 32-bit value restores its four bytes. -/
theorem u32le_take (l : List Nat) (h4 : 4 ≤ l.length)
    (hb : ∀ x ∈ l, x < 256) :
    u32le (leU32 l) = l.take 4 := by
  match l, h4 with
  | b0 :: b1 :: b2 :: b3 :: tail, _ =>
    have hb0 : b0 < 256 := hb b0 (by simp)
    have hb1 : b1 < 256 := hb b1 (by simp)
    have hb2 : b2 < 256 := hb b2 (by simp)
    have hb3 : b3 < 256 := hb b3 (by simp)
    have hle : leU32 (b0 :: b1 :: b2 :: b3 :: tail) =
        b0 + 256 * b1 + 65536 * b2 + 16777216 * b3 := by
      simp [leU32, List.getD_cons_zero, List.getD_cons_succ]
    rw [hle, show (b0 :: b1 :: b2 :: b3 :: tail).take 4 = [b0, b1, b2, b3]
      from rfl]
    simp only [u32le, List.cons.injEq, and_true]
    refine ⟨by omega, by omega, by omega, by omega⟩

/-- Serializing a read 16-bit value restores its two bytes. -/
theorem u16le_take (l : List Nat) (h2 : 2 ≤ l.length)
    (hb : ∀ x ∈ l, x < 256) :
    u16le (leU16 l) = l.take 2 := by
  match l, h2 with
  | b0 :: b1 :: tail, _ =>
    have hb0 : b0 < 256 := hb b0 (by simp)
    have hb1 : b1 < 256 := hb b1 (by simp)
    have hle : leU16 (b0 :: b1 :: tail) = b0 + 256 * b1 := by
      simp [leU16, List.getD_cons_zero, List.getD_cons_succ]
    rw [hle, show (b0 :: b1 :: tail).take 2 = [b0, b1] from rfl]
    simp only [u16le, List.cons.injEq, and_true]
    refine ⟨by omega, by omega⟩

/-- A one-byte take is the default-valued head. -/
theorem take_one_getD (l : List Nat) (h : 1 ≤ l.length) :
    l.take 1 = [l.getD 0 0] := by
  cases l with
  | nil => simp at h
  | cons a t => simp [List.getD]

/-- Gluing a `take` back onto the adjacent `drop`. -/
theorem take_drop_glue (l : List Nat) (k m : Nat) :
    (l.drop k).take m ++ l.drop (k + m) = l.drop k := by
  have h := List.take_append_drop m (l.drop k)
  rwa [List.drop_drop] at h

/-- One iterator step on a serialized record stream with consistent
counters parses back exactly the serialized fields and children, advancing
by `block_size + 4`. -/
theorem iternext_stream
    (bs lrn mapq bin ncig flag lseq : Nat)
    (refID posf nrefID npos tlen : Int)
    (name cig seq qual tags : List Nat)
    (hbs : bs = 32 + lrn + 4 * ncig + (lseq + 1) / 2 + lseq + tags.length)
    (hbs32 : bs < 4294967296)
    (hlrn1 : 1 ≤ lrn)
    (hname : name.length = lrn - 1)
    (hcig : cig.length = ncig) (hncig : ncig < 65536)
    (hcigw : ∀ w ∈ cig, w < 4294967296)
    (hseq : seq.length = (lseq + 1) / 2)
    (hqual : qual.length = lseq) (hlseq : lseq < 4294967296)
    (hbin : bin < 65536) (hflag : flag < 65536)
    (hr1 : -2147483648 ≤ refID) (hr2 : refID < 2147483648)
    (hp1 : -2147483648 ≤ posf) (hp2 : posf < 2147483648)
    (hn1 : -2147483648 ≤ nrefID) (hn2 : nrefID < 2147483648)
    (hq1 : -2147483648 ≤ npos) (hq2 : npos < 2147483648)
    (ht1 : -2147483648 ≤ tlen) (ht2 : tlen < 2147483648) :
    BamIterator_iternext
      (u32le bs ++ (i32le refID ++ (i32le posf ++ ([lrn] ++ ([mapq] ++
        (u16le bin ++ (u16le ncig ++ (u16le flag ++ (u32le lseq ++
        (i32le nrefID ++ (i32le npos ++ (i32le tlen ++ (name ++ ([0] ++
        (wordsToBytes cig ++ (seq ++ (qual ++ tags))))))))))))))))) 0 =
      .record
        { block_size := bs, refID := refID, pos := posf, l_read_name := lrn
          mapq := mapq, bin := bin, n_cigar_op := ncig, flag := flag
          l_seq := lseq, next_refID := nrefID, next_pos := npos, tlen := tlen
          read_name := name, cigar := cig, seq := seq, qual := qual
          tags := tags } (bs + 4) := by
  set L := u32le bs ++ (i32le refID ++ (i32le posf ++ ([lrn] ++ ([mapq] ++
    (u16le bin ++ (u16le ncig ++ (u16le flag ++ (u32le lseq ++
    (i32le nrefID ++ (i32le npos ++ (i32le tlen ++ (name ++ ([0] ++
    (wordsToBytes cig ++ (seq ++ (qual ++ tags)))))))))))))))) with hL
  have d4 : L.drop 4 = i32le refID ++ (i32le posf ++ ([lrn] ++ ([mapq] ++
      (u16le bin ++ (u16le ncig ++ (u16le flag ++ (u32le lseq ++
      (i32le nrefID ++ (i32le npos ++ (i32le tlen ++ (name ++ ([0] ++
      (wordsToBytes cig ++ (seq ++ (qual ++ tags))))))))))))))) := by
    rw [hL]; rfl
  have d8 : L.drop 8 = i32le posf ++ ([lrn] ++ ([mapq] ++ (u16le bin ++
      (u16le ncig ++ (u16le flag ++ (u32le lseq ++ (i32le nrefID ++
      (i32le npos ++ (i32le tlen ++ (name ++ ([0] ++ (wordsToBytes cig ++
      (seq ++ (qual ++ tags)))))))))))))) := by
    rw [hL]; rfl
  have d14 : L.drop 14 = u16le bin ++ (u16le ncig ++ (u16le flag ++
      (u32le lseq ++ (i32le nrefID ++ (i32le npos ++ (i32le tlen ++
      (name ++ ([0] ++ (wordsToBytes cig ++ (seq ++ (qual ++
      tags))))))))))) := by
    rw [hL]; rfl
  have d16 : L.drop 16 = u16le ncig ++ (u16le flag ++ (u32le lseq ++
      (i32le nrefID ++ (i32le npos ++ (i32le tlen ++ (name ++ ([0] ++
      (wordsToBytes cig ++ (seq ++ (qual ++ tags)))))))))) := by
    rw [hL]; rfl
  have d18 : L.drop 18 = u16le flag ++ (u32le lseq ++ (i32le nrefID ++
      (i32le npos ++ (i32le tlen ++ (name ++ ([0] ++ (wordsToBytes cig ++
      (seq ++ (qual ++ tags))))))))) := by
    rw [hL]; rfl
  have d20 : L.drop 20 = u32le lseq ++ (i32le nrefID ++ (i32le npos ++
      (i32le tlen ++ (name ++ ([0] ++ (wordsToBytes cig ++ (seq ++
      (qual ++ tags)))))))) := by
    rw [hL]; rfl
  have d24 : L.drop 24 = i32le nrefID ++ (i32le npos ++ (i32le tlen ++
      (name ++ ([0] ++ (wordsToBytes cig ++ (seq ++ (qual ++
      tags))))))) := by
    rw [hL]; rfl
  have d28 : L.drop 28 = i32le npos ++ (i32le tlen ++ (name ++ ([0] ++
      (wordsToBytes cig ++ (seq ++ (qual ++ tags)))))) := by
    rw [hL]; rfl
  have d32 : L.drop 32 = i32le tlen ++ (name ++ ([0] ++ (wordsToBytes cig ++
      (seq ++ (qual ++ tags))))) := by
    rw [hL]; rfl
  have d36 : L.drop 36 = name ++ ([0] ++ (wordsToBytes cig ++ (seq ++
      (qual ++ tags)))) := by
    rw [hL]; rfl
  have e_bs : leU32 L = bs := by
    rw [hL]; exact leU32_u32le_append _ _ hbs32
  have e_refID : toI32 (leU32 (L.drop 4)) = refID := by
    rw [d4]; exact toI32_i32le_append _ _ hr1 hr2
  have e_posf : toI32 (leU32 (L.drop 8)) = posf := by
    rw [d8]; exact toI32_i32le_append _ _ hp1 hp2
  have e_lrn : (L.drop 12).getD 0 0 = lrn := by rw [hL]; rfl
  have e_mapq : (L.drop 13).getD 0 0 = mapq := by rw [hL]; rfl
  have e_bin : leU16 (L.drop 14) = bin := by
    rw [d14]; exact leU16_u16le_append _ _ hbin
  have e_ncig : leU16 (L.drop 16) = ncig := by
    rw [d16]; exact leU16_u16le_append _ _ hncig
  have e_flag : leU16 (L.drop 18) = flag := by
    rw [d18]; exact leU16_u16le_append _ _ hflag
  have e_lseq : leU32 (L.drop 20) = lseq := by
    rw [d20]; exact leU32_u32le_append _ _ hlseq
  have e_nrefID : toI32 (leU32 (L.drop 24)) = nrefID := by
    rw [d24]; exact toI32_i32le_append _ _ hn1 hn2
  have e_npos : toI32 (leU32 (L.drop 28)) = npos := by
    rw [d28]; exact toI32_i32le_append _ _ hq1 hq2
  have e_tlen : toI32 (leU32 (L.drop 32)) = tlen := by
    rw [d32]; exact toI32_i32le_append _ _ ht1 ht2
  have hlen : L.length = bs + 4 := by
    rw [hL]
    simp [u32le, i32le, u16le, wordsToBytes_length, List.length_append]
    omega
  have ename : (L.drop 36).take (lrn - 1) = name := by
    rw [d36, ← hname, List.take_left]
  have dp2 : L.drop (36 + lrn) =
      wordsToBytes cig ++ (seq ++ (qual ++ tags)) := by
    rw [← List.drop_drop, d36, ← List.append_assoc]
    refine List.drop_left' ?_
    simp only [List.length_append, hname, List.length_singleton]
    omega
  have ecig : readWords (L.drop (36 + lrn)) ncig = cig := by
    rw [dp2, ← hcig]
    exact readWords_wordsToBytes cig _ hcigw
  have dp3 : L.drop (36 + lrn + 4 * ncig) = seq ++ (qual ++ tags) := by
    rw [← List.drop_drop, dp2]
    refine List.drop_left' ?_
    rw [wordsToBytes_length, hcig]
  have eseq : (L.drop (36 + lrn + 4 * ncig)).take ((lseq + 1) / 2) = seq := by
    rw [dp3, ← hseq, List.take_left]
  have dp4 : L.drop (36 + lrn + 4 * ncig + (lseq + 1) / 2) =
      qual ++ tags := by
    rw [← List.drop_drop, dp3]
    exact List.drop_left' hseq
  have equalq : (L.drop (36 + lrn + 4 * ncig + (lseq + 1) / 2)).take lseq =
      qual := by
    rw [dp4, ← hqual, List.take_left]
  have dp5 : L.drop (36 + lrn + 4 * ncig + (lseq + 1) / 2 + lseq) =
      tags := by
    rw [← List.drop_drop, dp4]
    exact List.drop_left' hqual
  have etags : (L.drop (36 + lrn + 4 * ncig + (lseq + 1) / 2 + lseq)).take
      (bs + 4 - (36 + lrn + 4 * ncig + (lseq + 1) / 2 + lseq)) = tags := by
    rw [dp5, show bs + 4 - (36 + lrn + 4 * ncig + (lseq + 1) / 2 + lseq) =
      tags.length from by omega, List.take_length]
  have c1 : ¬ (0 ≥ L.length) := by rw [hlen]; omega
  have c2 : ¬ (L.length < 36) := by rw [hlen]; omega
  have c3 : ¬ (bs + 4 > L.length) := by rw [hlen]; omega
  have c4 : ¬ (lrn = 0) := by omega
  have c5 : ¬ (bs + 4 < 36 + lrn + 4 * ncig + (lseq + 1) / 2 + lseq) := by
    omega
  simp only [BamIterator_iternext, List.drop_zero, Nat.zero_add, Nat.sub_zero]
  rw [e_bs, e_refID, e_posf, e_lrn, e_mapq, e_bin, e_ncig, e_flag, e_lseq,
    e_nrefID, e_npos, e_tlen]
  rw [if_neg c1, if_neg c2, if_neg c3, if_neg c4, if_neg c5]
  rw [ename, ecig, eseq, equalq, etags]

/-- Direction 1 of the record round trip: parsing the serialized bytes of a
well-formed record yields that record back, consuming all of them. -/
theorem iternext_to_bytes (r : BamRecord) (h : bamWF r) :
    BamIterator_iternext (BamRecord_to_bytes r) 0 =
      .record r (r.block_size + 4) := by
  obtain ⟨hbs, hbs32, hlrn, hlrn255, hncig, hncig16, hseq, hqual, hlseq,
    hmapq, hbin, hflag, hr1, hr2, hp1, hp2, hn1, hn2, hq1, hq2, ht1, ht2,
    hcigw, hnb, hsb, hqb, htb⟩ := h
  have hptr : (BamRecord_to_ptr r).length = r.block_size + 4 := by
    simp [BamRecord_to_ptr, u32le, i32le, u16le, wordsToBytes_length,
      List.length_append]
    omega
  have hb : BamRecord_to_bytes r = BamRecord_to_ptr r := by
    rw [BamRecord_to_bytes, ← hptr, List.take_length]
  rw [hb]
  obtain ⟨bs, rid, pf, lrn, mq, bn, nc, fl, ls, nrid, np, tl, nm, cg, sq,
    ql, tg⟩ := r
  dsimp only at *
  simp only [BamRecord_to_ptr, List.append_assoc]
  exact iternext_stream bs lrn mq bn nc fl ls rid pf nrid np tl nm cg sq ql
    tg hbs hbs32 (by omega) (by omega) (by omega) hncig16 hcigw hseq hqual
    hlseq hbin hflag hr1 hr2 hp1 hp2 hn1 hn2 hq1 hq2 ht1 ht2

/-- Direction 2 of the record round trip: a valid single-record blob parses
into a record whose serialization reproduces the blob byte for byte. -/
theorem to_bytes_iternext (b : List Nat) (h : validBlob b) :
    ∃ r, BamIterator_iternext b 0 = .record r b.length ∧
      BamRecord_to_bytes r = b ∧
      r.read_name = (b.drop 36).take ((b.drop 12).getD 0 0 - 1) := by
  obtain ⟨⟨h36, hbytes, hlen4, hlrn1, hfit⟩, hnul⟩ := h
  rw [← getD_drop b 12 0] at hlrn1 hfit hnul
  have hbyt : ∀ (k : Nat), ∀ x ∈ b.drop k, x < 256 :=
    fun k x hx => hbytes x (List.drop_subset _ _ hx)
  have hdlen : ∀ (k : Nat), (b.drop k).length = b.length - k :=
    fun k => List.length_drop k b
  have g4 : (b.drop 4).take 4 ++ b.drop 8 = b.drop 4 := by
    have hg := take_drop_glue b 4 4
    norm_num at hg
    exact hg
  have g8 : (b.drop 8).take 4 ++ b.drop 12 = b.drop 8 := by
    have hg := take_drop_glue b 8 4
    norm_num at hg
    exact hg
  have g12 : (b.drop 12).take 1 ++ b.drop 13 = b.drop 12 := by
    have hg := take_drop_glue b 12 1
    norm_num at hg
    exact hg
  have g13 : (b.drop 13).take 1 ++ b.drop 14 = b.drop 13 := by
    have hg := take_drop_glue b 13 1
    norm_num at hg
    exact hg
  have g14 : (b.drop 14).take 2 ++ b.drop 16 = b.drop 14 := by
    have hg := take_drop_glue b 14 2
    norm_num at hg
    exact hg
  have g16 : (b.drop 16).take 2 ++ b.drop 18 = b.drop 16 := by
    have hg := take_drop_glue b 16 2
    norm_num at hg
    exact hg
  have g18 : (b.drop 18).take 2 ++ b.drop 20 = b.drop 18 := by
    have hg := take_drop_glue b 18 2
    norm_num at hg
    exact hg
  have g20 : (b.drop 20).take 4 ++ b.drop 24 = b.drop 20 := by
    have hg := take_drop_glue b 20 4
    norm_num at hg
    exact hg
  have g24 : (b.drop 24).take 4 ++ b.drop 28 = b.drop 24 := by
    have hg := take_drop_glue b 24 4
    norm_num at hg
    exact hg
  have g28 : (b.drop 28).take 4 ++ b.drop 32 = b.drop 28 := by
    have hg := take_drop_glue b 28 4
    norm_num at hg
    exact hg
  have g32 : (b.drop 32).take 4 ++ b.drop 36 = b.drop 32 := by
    have hg := take_drop_glue b 32 4
    norm_num at hg
    exact hg
  have gname : (b.drop 36).take ((b.drop 12).getD 0 0 - 1) ++
      b.drop (36 + ((b.drop 12).getD 0 0 - 1)) = b.drop 36 :=
    take_drop_glue b 36 ((b.drop 12).getD 0 0 - 1)
  have gnul : (b.drop (36 + ((b.drop 12).getD 0 0 - 1))).take 1 ++ b.drop (36 + (b.drop 12).getD 0 0) =
      b.drop (36 + ((b.drop 12).getD 0 0 - 1)) := by
    have hg := take_drop_glue b (36 + ((b.drop 12).getD 0 0 - 1)) 1
    rw [show 36 + ((b.drop 12).getD 0 0 - 1) + 1 = 36 + (b.drop 12).getD 0 0 from by omega] at hg
    exact hg
  have gcig : (b.drop (36 + (b.drop 12).getD 0 0)).take (4 * (leU16 (b.drop 16))) ++ b.drop (36 + (b.drop 12).getD 0 0 + 4 * (leU16 (b.drop 16))) =
      b.drop (36 + (b.drop 12).getD 0 0) :=
    take_drop_glue b (36 + (b.drop 12).getD 0 0) (4 * (leU16 (b.drop 16)))
  have gseq : (b.drop (36 + (b.drop 12).getD 0 0 + 4 * (leU16 (b.drop 16)))).take (((leU32 (b.drop 20)) + 1) / 2) ++ b.drop (36 + (b.drop 12).getD 0 0 + 4 * (leU16 (b.drop 16)) + ((leU32 (b.drop 20)) + 1) / 2) =
      b.drop (36 + (b.drop 12).getD 0 0 + 4 * (leU16 (b.drop 16))) :=
    take_drop_glue b (36 + (b.drop 12).getD 0 0 + 4 * (leU16 (b.drop 16))) (((leU32 (b.drop 20)) + 1) / 2)
  have gqual : (b.drop (36 + (b.drop 12).getD 0 0 + 4 * (leU16 (b.drop 16)) + ((leU32 (b.drop 20)) + 1) / 2)).take (leU32 (b.drop 20)) ++ b.drop (36 + (b.drop 12).getD 0 0 + 4 * (leU16 (b.drop 16)) + ((leU32 (b.drop 20)) + 1) / 2 + (leU32 (b.drop 20))) =
      b.drop (36 + (b.drop 12).getD 0 0 + 4 * (leU16 (b.drop 16)) + ((leU32 (b.drop 20)) + 1) / 2) :=
    take_drop_glue b (36 + (b.drop 12).getD 0 0 + 4 * (leU16 (b.drop 16)) + ((leU32 (b.drop 20)) + 1) / 2) (leU32 (b.drop 20))
  have e0 : u32le (leU32 b) = b.take 4 := by
    have hu := u32le_take b (by omega) hbytes
    rwa [show leU32 b = leU32 b from rfl] at hu
  have e4 : i32le (toI32 (leU32 (b.drop 4))) = (b.drop 4).take 4 := by
    rw [i32le, emod_toI32 _ (leU32_lt (hbyt 4))]
    exact u32le_take _ (by rw [hdlen]; omega) (hbyt 4)
  have e8 : i32le (toI32 (leU32 (b.drop 8))) = (b.drop 8).take 4 := by
    rw [i32le, emod_toI32 _ (leU32_lt (hbyt 8))]
    exact u32le_take _ (by rw [hdlen]; omega) (hbyt 8)
  have e24 : i32le (toI32 (leU32 (b.drop 24))) = (b.drop 24).take 4 := by
    rw [i32le, emod_toI32 _ (leU32_lt (hbyt 24))]
    exact u32le_take _ (by rw [hdlen]; omega) (hbyt 24)
  have e28 : i32le (toI32 (leU32 (b.drop 28))) = (b.drop 28).take 4 := by
    rw [i32le, emod_toI32 _ (leU32_lt (hbyt 28))]
    exact u32le_take _ (by rw [hdlen]; omega) (hbyt 28)
  have e32 : i32le (toI32 (leU32 (b.drop 32))) = (b.drop 32).take 4 := by
    rw [i32le, emod_toI32 _ (leU32_lt (hbyt 32))]
    exact u32le_take _ (by rw [hdlen]; omega) (hbyt 32)
  have e12 : [(b.drop 12).getD 0 0] = (b.drop 12).take 1 :=
    (take_one_getD _ (by rw [hdlen]; omega)).symm
  have e13 : [(b.drop 13).getD 0 0] = (b.drop 13).take 1 :=
    (take_one_getD _ (by rw [hdlen]; omega)).symm
  have e14 : u16le (leU16 (b.drop 14)) = (b.drop 14).take 2 :=
    u16le_take _ (by rw [hdlen]; omega) (hbyt 14)
  have e16 : u16le (leU16 (b.drop 16)) = (b.drop 16).take 2 :=
    u16le_take _ (by rw [hdlen]; omega) (hbyt 16)
  have e18 : u16le (leU16 (b.drop 18)) = (b.drop 18).take 2 :=
    u16le_take _ (by rw [hdlen]; omega) (hbyt 18)
  have e20 : u32le (leU32 (b.drop 20)) = (b.drop 20).take 4 :=
    u32le_take _ (by rw [hdlen]; omega) (hbyt 20)
  have ecig : wordsToBytes (readWords (b.drop (36 + (b.drop 12).getD 0 0)) (leU16 (b.drop 16))) =
      (b.drop (36 + (b.drop 12).getD 0 0)).take (4 * (leU16 (b.drop 16))) :=
    wordsToBytes_readWords _ _ (by rw [hdlen]; omega) (hbyt _)
  have enul : ([0] : List Nat) = (b.drop (36 + ((b.drop 12).getD 0 0 - 1))).take 1 := by
    rw [take_one_getD _ (by rw [hdlen]; omega), getD_drop,
      show 36 + ((b.drop 12).getD 0 0 - 1) = 36 + (b.drop 12).getD 0 0 - 1 from by omega, hnul]
  have hdecomp :
      u32le (leU32 b) ++ (i32le (toI32 (leU32 (b.drop 4))) ++ (i32le
      (toI32 (leU32 (b.drop 8))) ++ ([(b.drop 12).getD 0 0] ++ ([(b.drop
      13).getD 0 0] ++ (u16le (leU16 (b.drop 14)) ++ (u16le (leU16
      (b.drop 16)) ++ (u16le (leU16 (b.drop 18)) ++ (u32le (leU32
      (b.drop 20)) ++ (i32le (toI32 (leU32 (b.drop 24))) ++ (i32le
      (toI32 (leU32 (b.drop 28))) ++ (i32le (toI32 (leU32 (b.drop 32)))
      ++ ((b.drop 36).take ((b.drop 12).getD 0 0 - 1) ++ ([0] ++
      (wordsToBytes (readWords (b.drop (36 + (b.drop 12).getD 0 0))
      (leU16 (b.drop 16))) ++ ((b.drop (36 + (b.drop 12).getD 0 0 + 4 *
      (leU16 (b.drop 16)))).take (((leU32 (b.drop 20)) + 1) / 2) ++
      ((b.drop (36 + (b.drop 12).getD 0 0 + 4 * (leU16 (b.drop 16)) +
      ((leU32 (b.drop 20)) + 1) / 2)).take (leU32 (b.drop 20)) ++
      (b.drop (36 + (b.drop 12).getD 0 0 + 4 * (leU16 (b.drop 16)) +
      ((leU32 (b.drop 20)) + 1) / 2 + (leU32 (b.drop
      20)))))))))))))))))))) = b := by
    rw [e0, e4, e8, e12, e13, e14, e16, e18, e20, e24, e28, e32, ecig,
      enul]
    rw [gqual, gseq, gcig, gnul, gname, g32, g28, g24, g20, g18, g16, g14,
      g13, g12, g8, g4]
    exact List.take_append_drop 4 b
  refine ⟨{ block_size := leU32 b
            refID := toI32 (leU32 (b.drop 4))
            pos := toI32 (leU32 (b.drop 8))
            l_read_name := (b.drop 12).getD 0 0
            mapq := (b.drop 13).getD 0 0
            bin := leU16 (b.drop 14)
            n_cigar_op := leU16 (b.drop 16)
            flag := leU16 (b.drop 18)
            l_seq := leU32 (b.drop 20)
            next_refID := toI32 (leU32 (b.drop 24))
            next_pos := toI32 (leU32 (b.drop 28))
            tlen := toI32 (leU32 (b.drop 32))
            read_name := (b.drop 36).take ((b.drop 12).getD 0 0 - 1)
            cigar := readWords (b.drop (36 + (b.drop 12).getD 0 0)) (leU16 (b.drop 16))
            seq := (b.drop (36 + (b.drop 12).getD 0 0 + 4 * (leU16 (b.drop 16)))).take (((leU32 (b.drop 20)) + 1) / 2)
            qual := (b.drop (36 + (b.drop 12).getD 0 0 + 4 * (leU16 (b.drop 16)) + ((leU32 (b.drop 20)) + 1) / 2)).take (leU32 (b.drop 20))
            tags := b.drop (36 + (b.drop 12).getD 0 0 + 4 * (leU16 (b.drop 16)) + ((leU32 (b.drop 20)) + 1) / 2 + (leU32 (b.drop 20))) }, ?_, ?_, rfl⟩
  · conv_lhs => rw [← hdecomp]
    rw [iternext_stream (leU32 b) ((b.drop 12).getD 0 0) ((b.drop 13).getD 0 0)
      (leU16 (b.drop 14)) (leU16 (b.drop 16)) (leU16 (b.drop 18)) (leU32 (b.drop 20))
      (toI32 (leU32 (b.drop 4))) (toI32 (leU32 (b.drop 8)))
      (toI32 (leU32 (b.drop 24))) (toI32 (leU32 (b.drop 28)))
      (toI32 (leU32 (b.drop 32)))
      ((b.drop 36).take ((b.drop 12).getD 0 0 - 1))
      (readWords (b.drop (36 + (b.drop 12).getD 0 0)) (leU16 (b.drop 16)))
      ((b.drop (36 + (b.drop 12).getD 0 0 + 4 * (leU16 (b.drop 16)))).take (((leU32 (b.drop 20)) + 1) / 2))
      ((b.drop (36 + (b.drop 12).getD 0 0 + 4 * (leU16 (b.drop 16)) + ((leU32 (b.drop 20)) + 1) / 2)).take (leU32 (b.drop 20)))
      (b.drop (36 + (b.drop 12).getD 0 0 + 4 * (leU16 (b.drop 16)) + ((leU32 (b.drop 20)) + 1) / 2 + (leU32 (b.drop 20))))
      (by rw [hdlen]; omega)
      (leU32_lt hbytes)
      hlrn1
      (by simp only [List.length_take, hdlen]; omega)
      (readWords_length _ _)
      (leU16_lt (hbyt 16))
      (readWords_lt (hbyt _) _)
      (by simp only [List.length_take, hdlen]; omega)
      (by simp only [List.length_take, hdlen]; omega)
      (leU32_lt (hbyt 20))
      (leU16_lt (hbyt 14))
      (leU16_lt (hbyt 18))
      (toI32_range _ (leU32_lt (hbyt 4))).1
      (toI32_range _ (leU32_lt (hbyt 4))).2
      (toI32_range _ (leU32_lt (hbyt 8))).1
      (toI32_range _ (leU32_lt (hbyt 8))).2
      (toI32_range _ (leU32_lt (hbyt 24))).1
      (toI32_range _ (leU32_lt (hbyt 24))).2
      (toI32_range _ (leU32_lt (hbyt 28))).1
      (toI32_range _ (leU32_lt (hbyt 28))).2
      (toI32_range _ (leU32_lt (hbyt 32))).1
      (toI32_range _ (leU32_lt (hbyt 32))).2]
    rw [hlen4]
  · rw [BamRecord_to_bytes]
    dsimp only [BamRecord_to_ptr]
    simp only [List.append_assoc]
    rw [hdecomp, ← hlen4, List.take_length]

/-- C2 counterexample: the claim calls a blob valid when its counters are
consistent with `block_size` and asserts `serialize(parse(b)) = b` for every
such blob.  `blobNoNul` has consistent counters but an `X` byte where the
read name's NUL terminator belongs; the iterator parses it successfully and
the re-serialization writes a NUL there, so the bytes differ. -/
theorem C2_roundtrip_counterexample :
    blobCountersConsistent blobNoNul ∧
    BamIterator_iternext blobNoNul 0 = .record recordEx 38 ∧
    BamRecord_to_bytes recordEx ≠ blobNoNul := by
  refine ⟨by decide, by decide, by decide⟩

/-- C2 (amended): serialization and parsing are mutually inverse once a
valid blob is also required to carry the wire format's NUL terminator after
the read name: every internally consistent record parses back from its
`to_bytes` output (consuming `block_size + 4` bytes), and every valid blob
parses into a record whose serialization reproduces the blob byte for
byte. -/
theorem C2_roundtrip :
    (∀ r : BamRecord, bamWF r →
      BamIterator_iternext (BamRecord_to_bytes r) 0 =
        .record r (r.block_size + 4)) ∧
    (∀ b : List Nat, validBlob b →
      ∃ r, BamIterator_iternext b 0 = .record r b.length ∧
        BamRecord_to_bytes r = b) := by
  refine ⟨iternext_to_bytes, ?_⟩
  intro b hb
  obtain ⟨r, h1, h2, _⟩ := to_bytes_iternext b hb
  exact ⟨r, h1, h2⟩

/-- C2 witness: both round-trip directions at the spec's scenario 1 record
and its 38-byte serialization. -/
theorem C2_roundtrip_witness :
    BamIterator_iternext (BamRecord_to_bytes recordEx) 0 =
      .record recordEx (recordEx.block_size + 4) ∧
    (∃ r, BamIterator_iternext blobEx 0 = .record r blobEx.length ∧
      BamRecord_to_bytes r = blobEx) :=
  ⟨C2_roundtrip.1 recordEx (by decide), C2_roundtrip.2 blobEx (by decide)⟩

/-- C8 (amended): the iterator performs no ASCII validation: for every
valid record blob the iteration step yields a record whose stored read name
is the raw byte slice from the buffer — even when it contains bytes with
the high bit set.  (An ASCII failure can only arise later, in the
`read_name` string getter.) -/
theorem C8_no_ascii_check :
    ∀ b : List Nat, validBlob b →
      ∃ r, BamIterator_iternext b 0 = .record r b.length ∧
        r.read_name = (b.drop 36).take (b.getD 12 0 - 1) := by
  intro b hb
  obtain ⟨r, h1, _, h3⟩ := to_bytes_iternext b hb
  refine ⟨r, h1, ?_⟩
  rwa [getD_drop] at h3

/-- C8 witness: the amended statement applied to the valid blob whose read
name is the single high-bit byte `0x80`. -/
theorem C8_no_ascii_check_witness :
    ∃ r, BamIterator_iternext blobHighBit 0 = .record r blobHighBit.length ∧
      r.read_name = (blobHighBit.drop 36).take (blobHighBit.getD 12 0 - 1) :=
  C8_no_ascii_check blobHighBit (by decide)

/-- C8 counterexample: the claim states that the iterator fails with
NonAscii whenever the read-name bytes contain a byte with the high bit set.
The source performs no ASCII check: the valid blob `blobHighBit`, whose
read name is the single byte `0x80`, is parsed into a record carrying that
byte. -/
theorem C8_no_ascii_check_counterexample :
    validBlob blobHighBit ∧
    BamIterator_iternext blobHighBit 0 = .record recordHighBit 38 ∧
    128 ∈ recordHighBit.read_name := by
  refine ⟨by decide, by decide, by decide⟩

/-- C10 (amended): every Cigar observable through the string constructor or
through `from_iter` satisfies the invariants (operation at most 9, run
length at most `2^28 - 1`); `from_buffer` reinterprets the bytes with no
content check and its results can violate the operation bound (see the
counterexample). -/
theorem C10_constructor_invariants :
    (∀ (s ws : List Nat), BamCigar__new___ s = .ok ws →
      ∀ w ∈ ws, bam_cigar_op w ≤ 9 ∧ bam_cigar_oplen w ≤ 268435455) ∧
    (∀ (ps : List (Int × Int)) (ws : List Nat),
      BamCigar_from_iter ps = .ok ws →
      ∀ w ∈ ws, bam_cigar_op w ≤ 9 ∧ bam_cigar_oplen w ≤ 268435455) := by
  constructor
  · intro s ws h
    rw [BamCigar__new___] at h
    split at h
    · exact absurd h (by simp)
    · exact cigarParseGo_invariants s.length s ws h
  · exact from_iter_invariants

/-- C10 witness: the amended invariants at the parsed string `"3M1I2D"` and
at `from_iter [(0, 1)]`. -/
theorem C10_constructor_invariants_witness :
    (∀ w ∈ [48, 17, 34], bam_cigar_op w ≤ 9 ∧
      bam_cigar_oplen w ≤ 268435455) ∧
    (∀ w ∈ [16], bam_cigar_op w ≤ 9 ∧ bam_cigar_oplen w ≤ 268435455) :=
  ⟨C10_constructor_invariants.1 [51, 77, 49, 73, 50, 68] [48, 17, 34]
      (by decide),
   C10_constructor_invariants.2 [((0 : Int), (1 : Int))] [16] (by decide)⟩

end Htspy
